import Mathlib

/-!
# Verification of the marinetraffic field-mapping and normalization engine

Shallow embedding of `src/index.js`: the state-code table (`stateMapping`),
the unit/sentinel converters, the declarative mapping table (`mappings`),
the record normalizer (`getVesselDelta`) and the batch translator
(`marineTrafficToDeltas`), plus the geodesic projection utility
(`calc_position_from`, `mod`).

Modelling conventions:
* A raw vessel record is a flat structure of optional fields, each a JS
  primitive (string or number); absent fields are `none` (JS `undefined`).
  Numbers are embedded as exact rationals (`ℚ`); the relevant JS coercions
  (`ToNumber`, `ToString`, `+`, `==`, `>`, `/`) are embedded explicitly,
  with `NaN` represented as a distinct computation value.  Non-finite
  numerics (`Infinity`), hex literals and exponents in numeric strings are
  outside the model: the string-to-number parsers handle optionally signed
  decimal literals, which covers every value format the engine's API feeds
  it.
* Output (emitted) values live in `OVal`, whose numeric payload is `ℝ`
  (the degree→radian converters multiply by `π`).
* Number-to-string rendering (used only where a number is concatenated
  into a string) is an exact decimal/ratio rendering; no claim depends on
  the specific rendering of a non-string number.
-/

namespace MarineTraffic

/-- A JS primitive value as it appears in a parsed JSON vessel record:
a string or a (finite) number. -/
inductive JPrim where
  | str (s : String)
  | num (q : ℚ)
  deriving DecidableEq, Repr

/-- A JS value during conversion arithmetic: a primitive, `undefined`
(absent field), or `NaN` (result of failed numeric coercion). -/
inductive JComp where
  | undef
  | nan
  | str (s : String)
  | num (q : ℚ)
  deriving DecidableEq, Repr

/-- Injection of a primitive into computation values. -/
def JComp.ofPrim : JPrim → JComp
  | .str s => .str s
  | .num q => .num q

/-- Injection of an optional record field into computation values
(absent field reads as JS `undefined`). -/
def JComp.ofOpt : Option JPrim → JComp
  | none => .undef
  | some p => .ofPrim p

/-- Decimal rendering of a natural number (structural recursion on a
fuel argument so that it reduces definitionally). -/
def natToStrAux : ℕ → ℕ → String
  | 0, _ => ""
  | fuel + 1, n =>
    if n < 10 then String.singleton (Nat.digitChar n)
    else natToStrAux fuel (n / 10) ++ String.singleton (Nat.digitChar (n % 10))

/-- Decimal rendering of a natural number. -/
def natToStr (n : ℕ) : String := natToStrAux (n + 1) n

/-- Decimal rendering of an integer. -/
def intToStr (z : ℤ) : String :=
  if z < 0 then "-" ++ natToStr z.natAbs else natToStr z.natAbs

/-- Rendering of a rational as a string (embedding of JS number
`ToString`; exact on integers, which is the only case the engine's
string claims exercise). -/
def numToStr (q : ℚ) : String :=
  if q.den = 1 then intToStr q.num else intToStr q.num ++ "/" ++ natToStr q.den

/-- JS `ToString` on a primitive. -/
def JPrim.toStr : JPrim → String
  | .str s => s
  | .num q => numToStr q

/-- JS `ToString` on a computation value (`undefined` renders as the
string "undefined", as in JS string concatenation). -/
def JComp.toStr : JComp → String
  | .undef => "undefined"
  | .nan => "NaN"
  | .str s => s
  | .num q => numToStr q

/-- `ToString` of an optional raw field (used for `vessel.MMSI`,
`vessel.TIMESTAMP`, `vessel.DSRC` concatenations). -/
def strOfOpt (p : Option JPrim) : String := (JComp.ofOpt p).toStr

/-- One parsed digit run: (number of digits, accumulated value, rest). -/
def parseDigits : List Char → ℕ → ℕ → ℕ × ℕ × List Char
  | [], acc, cnt => (cnt, acc, [])
  | c :: rest, acc, cnt =>
    if c.isDigit then parseDigits rest (acc * 10 + (c.toNat - 48)) (cnt + 1)
    else (cnt, acc, c :: rest)

/-- Parse an unsigned decimal literal (`digits [. digits]` or `. digits`)
from the head of the character list; `none` if no digits found. -/
def parseUnsigned (cs : List Char) : Option (ℚ × List Char) :=
  let (n, v, cs1) := parseDigits cs 0 0
  match cs1 with
  | '.' :: cs2 =>
    let (m, f, cs3) := parseDigits cs2 0 0
    if n = 0 ∧ m = 0 then none
    else some ((v : ℚ) + (f : ℚ) / (10 : ℚ) ^ m, cs3)
  | _ => if n = 0 then none else some ((v : ℚ), cs1)

/-- Parse an optionally signed decimal literal. -/
def parseSigned (cs : List Char) : Option (ℚ × List Char) :=
  match cs with
  | '-' :: rest => (parseUnsigned rest).map (fun p => (-p.1, p.2))
  | '+' :: rest => parseUnsigned rest
  | _ => parseUnsigned cs

/-- JS `ToNumber` on a string: trim whitespace, empty string is `0`,
otherwise the whole remaining string must be a signed decimal literal;
`none` encodes `NaN`. -/
def jsStringToNumber (s : String) : Option ℚ :=
  let cs := (s.toList.dropWhile Char.isWhitespace).reverse.dropWhile Char.isWhitespace
  let cs := cs.reverse
  if cs.isEmpty then some 0
  else
    match parseSigned cs with
    | some (q, []) => some q
    | _ => none

/-- JS `ToNumber` on a computation value; `none` encodes `NaN`
(`undefined` coerces to `NaN`). -/
def JComp.toNum : JComp → Option ℚ
  | .undef => none
  | .nan => none
  | .str s => jsStringToNumber s
  | .num q => some q

/-- JS `+`: string concatenation if either operand is a string, else
numeric addition with `NaN` propagation. -/
def jsAdd (a b : JComp) : JComp :=
  match a, b with
  | .str _, _ | _, .str _ => .str (a.toStr ++ b.toStr)
  | _, _ =>
    match a.toNum, b.toNum with
    | some x, some y => .num (x + y)
    | _, _ => .nan

/-- JS loose equality `v == n` against a number literal: coerce `v` to a
number; `NaN` and `undefined` compare unequal to everything. -/
def jsEqNum (a : JComp) (n : ℚ) : Bool :=
  match a.toNum with
  | some q => q == n
  | none => false

/-- JS `>` between a value and a numeric value (numeric comparison;
`NaN` on either side yields `false`). -/
def jsGtNum (a b : JComp) : Bool :=
  match a.toNum, b.toNum with
  | some x, some y => decide (y < x)
  | _, _ => false

/-- JS division by a (nonzero) numeric constant, with `NaN` propagation. -/
def jsDivConst (a : JComp) (d : ℚ) : JComp :=
  match a.toNum with
  | some q => .num (q / d)
  | none => .nan

/-- JS subtraction (numeric, `NaN` propagation). -/
def jsSub (a b : JComp) : JComp :=
  match a.toNum, b.toNum with
  | some x, some y => .num (x - y)
  | _, _ => .nan

/-- JS multiplication by a numeric constant, with `NaN` propagation. -/
def jsMulConst (a : JComp) (d : ℚ) : JComp :=
  match a.toNum with
  | some q => .num (q * d)
  | none => .nan

/-- JS `parseFloat`: on a number it returns the number itself (JS number
formatting round-trips); on a string it parses the longest signed decimal
prefix after leading whitespace; `undefined` stringifies to "undefined"
and parses to `NaN` (`none`). -/
def jsParseFloat : JComp → Option ℚ
  | .num q => some q
  | .str s =>
    match parseSigned (s.toList.dropWhile Char.isWhitespace) with
    | some (q, _) => some q
    | none => none
  | .undef => none
  | .nan => none

/-- An emitted (output) value: the JS value space reachable by the
engine's output side.  Numeric payloads are real numbers (the
degree→radian conversions multiply by `π`). -/
inductive OVal where
  | onull
  | oundef
  | onan
  | ostr (s : String)
  | onum (x : ℝ)
  | oobj (fields : List (String × OVal))

/-- Output view of a primitive raw value passed through unconverted. -/
def primToOVal : JPrim → OVal
  | .str s => .ostr s
  | .num q => .onum (q : ℝ)

/-- Output view of a computation value. -/
def JComp.toOVal : JComp → OVal
  | .undef => .oundef
  | .nan => .onan
  | .str s => .ostr s
  | .num q => .onum (q : ℝ)

/-- `parseFloat` result as an output value (`NaN` when unparsable). -/
def parseFloatOVal (c : JComp) : OVal :=
  match jsParseFloat c with
  | some q => .onum (q : ℝ)
  | none => .onan

/-- A raw marinetraffic vessel record (`RawVesselRecord`): the flat
vendor field map.  Absent fields are `none`. -/
structure MTRecord where
  MMSI : Option JPrim := none
  SHIPNAME : Option JPrim := none
  CALLSIGN : Option JPrim := none
  IMO : Option JPrim := none
  COURSE : Option JPrim := none
  HEADING : Option JPrim := none
  DESTINATION : Option JPrim := none
  A : Option JPrim := none
  B : Option JPrim := none
  C : Option JPrim := none
  D : Option JPrim := none
  DRAUGHT : Option JPrim := none
  LAT : Option JPrim := none
  LON : Option JPrim := none
  SPEED : Option JPrim := none
  SHIPTYPE : Option JPrim := none
  STATUS : Option JPrim := none
  ETA : Option JPrim := none
  DISTANCE_TRAVELLED : Option JPrim := none
  TIMESTAMP : Option JPrim := none
  DSRC : Option JPrim := none

/-- JS property read `vessel[key]` for the keys the mapping table uses. -/
def vesselGet (v : MTRecord) : String → Option JPrim
  | "MMSI" => v.MMSI
  | "SHIPNAME" => v.SHIPNAME
  | "CALLSIGN" => v.CALLSIGN
  | "IMO" => v.IMO
  | "COURSE" => v.COURSE
  | "HEADING" => v.HEADING
  | "DESTINATION" => v.DESTINATION
  | "A" => v.A
  | "B" => v.B
  | "C" => v.C
  | "D" => v.D
  | "DRAUGHT" => v.DRAUGHT
  | "LAT" => v.LAT
  | "LON" => v.LON
  | "SPEED" => v.SPEED
  | "SHIPTYPE" => v.SHIPTYPE
  | "STATUS" => v.STATUS
  | "ETA" => v.ETA
  | "DISTANCE_TRAVELLED" => v.DISTANCE_TRAVELLED
  | "TIMESTAMP" => v.TIMESTAMP
  | "DSRC" => v.DSRC
  | _ => none

/-- `stateMapping` of `src/index.js` restricted to integer status codes
(a JS property lookup stringifies its key; the table's keys are exactly
the canonical decimal strings of 0–10, 14 and 15, and key 15 maps to
`undefined`). -/
def stateMappingInt : ℤ → Option String
  | 0 => some "motoring"
  | 1 => some "anchored"
  | 2 => some "not under command"
  | 3 => some "restricted manouverability"
  | 4 => some "constrained by draft"
  | 5 => some "moored"
  | 6 => some "aground"
  | 7 => some "fishing"
  | 8 => some "sailing"
  | 9 => some "hazardous material high speed"
  | 10 => some "hazardous material wing in ground"
  | 14 => some "ais-sart"
  | _ => none

/-- `stateMapping` lookup with a string key. -/
def stateMappingStr : String → Option String
  | "0" => some "motoring"
  | "1" => some "anchored"
  | "2" => some "not under command"
  | "3" => some "restricted manouverability"
  | "4" => some "constrained by draft"
  | "5" => some "moored"
  | "6" => some "aground"
  | "7" => some "fishing"
  | "8" => some "sailing"
  | "9" => some "hazardous material high speed"
  | "10" => some "hazardous material wing in ground"
  | "14" => some "ais-sart"
  | _ => none

/-- `stateMapping[val]` for a raw STATUS value: string keys look up the
table directly; numeric keys are stringified, which matches the table's
decimal keys exactly when the number is an integer. -/
def stateMappingLookup : JPrim → Option String
  | .str s => stateMappingStr s
  | .num q => if q.den = 1 then stateMappingInt q.num else none

/-- `convertTime` of `src/index.js`: `val + "Z"`. -/
def convertTime (val : Option JPrim) : String := strOfOpt val ++ "Z"

/-!
## The conversion closures of the mapping table

Each conversion embeds one `conversion:` closure from the `mappings`
array of `src/index.js`.  A result of `none` models a JS return of
`null` or `undefined`, both of which the normalizer's `val == null`
check suppresses.
-/

/-- `numberToString`: `'' + num`. -/
def numberToString (_vessel : MTRecord) (val : JPrim) : Option OVal :=
  some (.ostr val.toStr)

/-- `degsToRadC`: `degrees * (Math.PI/180.0)`, with JS numeric coercion
(`NaN` when the raw value is not numeric). -/
noncomputable def degsToRadC (val : JPrim) : OVal :=
  match (JComp.ofPrim val).toNum with
  | some q => .onum ((q : ℝ) * (Real.pi / 180))
  | none => .onan

/-- COURSE conversion: sentinel 360 suppresses, else degrees→radians. -/
noncomputable def courseConversion (_vessel : MTRecord) (val : JPrim) : Option OVal :=
  if jsEqNum (.ofPrim val) 360 then none else some (degsToRadC val)

/-- HEADING conversion: sentinel 511 suppresses, else degrees→radians. -/
noncomputable def headingConversion (_vessel : MTRecord) (val : JPrim) : Option OVal :=
  if jsEqNum (.ofPrim val) 511 then none else some (degsToRadC val)

/-- `sensors.ais.fromBow` conversion: suppress when
`vessel.A + vessel.B` (the source's local `length`) is (loosely) `0`,
else pass the raw `A` through. -/
def fromBowConversion (vessel : MTRecord) (val : JPrim) : Option OVal :=
  if jsEqNum (jsAdd (.ofOpt vessel.A) (.ofOpt vessel.B)) 0 then none
  else some (primToOVal val)

/-- `sensors.ais.fromCenter` conversion: antenna offset from the
centerline computed from `vessel.C` (to port) and `vessel.D`
(to starboard); the source's locals `width = to_port + to_starboard`
and `width/2` are inlined. -/
def fromCenterConversion (vessel : MTRecord) (_val : JPrim) : Option OVal :=
  if jsEqNum (jsAdd (.ofOpt vessel.C) (.ofOpt vessel.D)) 0 then none
  else if jsGtNum (.ofOpt vessel.D)
      (jsDivConst (jsAdd (.ofOpt vessel.C) (.ofOpt vessel.D)) 2) then
    some (jsMulConst (jsSub (.ofOpt vessel.D)
      (jsDivConst (jsAdd (.ofOpt vessel.C) (.ofOpt vessel.D)) 2)) (-1)).toOVal
  else
    some (jsSub (jsDivConst (jsAdd (.ofOpt vessel.C) (.ofOpt vessel.D)) 2)
      (.ofOpt vessel.D)).toOVal

/-- `design.length` conversion: `{overall: to_stern + to_bow}` with
`to_stern = vessel.B` and `to_bow` the raw `A`, suppressed when the sum
is (loosely) `0`. -/
def lengthConversion (vessel : MTRecord) (val : JPrim) : Option OVal :=
  if jsEqNum (jsAdd (.ofOpt vessel.B) (.ofPrim val)) 0 then none
  else some (.oobj [("overall", (jsAdd (.ofOpt vessel.B) (.ofPrim val)).toOVal)])

/-- `design.beam` conversion: `to_port + vessel.D` with `to_port` the
raw `C`, suppressed when the sum is (loosely) `0`. -/
def beamConversion (vessel : MTRecord) (val : JPrim) : Option OVal :=
  if jsEqNum (jsAdd (.ofPrim val) (.ofOpt vessel.D)) 0 then none
  else some (jsAdd (.ofPrim val) (.ofOpt vessel.D)).toOVal

/-- `design.draft` conversion: suppress sentinel 0, else
`{maximum: val / 10}`. -/
def draughtConversion (_vessel : MTRecord) (val : JPrim) : Option OVal :=
  if jsEqNum (.ofPrim val) 0 then none
  else some (.oobj [("maximum", (jsDivConst (.ofPrim val) 10).toOVal)])

/-- `navigation.position` conversion:
`{latitude: parseFloat(val), longitude: parseFloat(vessel.LON)}`. -/
def positionConversion (vessel : MTRecord) (val : JPrim) : Option OVal :=
  some (.oobj [("latitude", parseFloatOVal (.ofPrim val)),
               ("longitude", parseFloatOVal (.ofOpt vessel.LON))])

/-- `navigation.speedOverGround` conversion: `val / 10 * 0.514444`
(tenths of a knot to m/s), with JS numeric coercion. -/
def speedConversion (_vessel : MTRecord) (val : JPrim) : Option OVal :=
  match (JComp.ofPrim val).toNum with
  | some q => some (.onum ((q / 10 * 0.514444 : ℚ) : ℝ))
  | none => some .onan

/-- `design.aisShipType` conversion, parameterized by the external
ship-type taxonomy resolver `schema.getAISShipTypeName` (a collaborator
outside this repository): a truthy resolved name yields
`{id: val, name}`, otherwise the field is suppressed. -/
def shipTypeConversion (resolve : JPrim → Option String)
    (_vessel : MTRecord) (val : JPrim) : Option OVal :=
  match resolve val with
  | some name => if name = "" then none
                 else some (.oobj [("id", primToOVal val), ("name", .ostr name)])
  | none => none

/-- `navigation.state` conversion: `stateMapping[val]`, with falsy
results (`undefined` for 15 and unlisted codes) suppressed. -/
def stateConversion (_vessel : MTRecord) (val : JPrim) : Option OVal :=
  match stateMappingLookup val with
  | some s => some (.ostr s)
  | none => none

/-- ETA conversion (`convertTime` applied to a present raw value). -/
def etaConversion (_vessel : MTRecord) (val : JPrim) : Option OVal :=
  some (.ostr (val.toStr ++ "Z"))

/-- `navigation.logTrip` conversion: `val / 1852`. -/
def logTripConversion (_vessel : MTRecord) (val : JPrim) : Option OVal :=
  match (JComp.ofPrim val).toNum with
  | some q => some (.onum ((q / 1852 : ℚ) : ℝ))
  | none => some .onan

/-- One `MappingRule` of the declarative table. -/
structure Mapping where
  path : String
  key : String
  root : Bool := false
  conversion : Option (MTRecord → JPrim → Option OVal) := none

/-- Rule 1 of the `mappings` table. -/
def mmsiMapping : Mapping :=
  { path := "mmsi", key := "MMSI", root := true, conversion := some numberToString }

/-- Rule 2 of the `mappings` table. -/
def nameMapping : Mapping := { path := "name", key := "SHIPNAME", root := true }

/-- Rule 3 of the `mappings` table. -/
def callsignMapping : Mapping := { path := "callsign", key := "CALLSIGN", root := true }

/-- Rule 4 of the `mappings` table. -/
def imoMapping : Mapping :=
  { path := "imo", key := "IMO", root := true, conversion := some numberToString }

/-- Rule 5 of the `mappings` table. -/
noncomputable def courseMapping : Mapping :=
  { path := "navigation.courseOverGroundTrue", key := "COURSE",
    conversion := some courseConversion }

/-- Rule 6 of the `mappings` table. -/
noncomputable def headingMapping : Mapping :=
  { path := "navigation.headingTrue", key := "HEADING",
    conversion := some headingConversion }

/-- Rule 7 of the `mappings` table. -/
def destinationMapping : Mapping :=
  { path := "navigation.destination.commonName", key := "DESTINATION" }

/-- Rule 8 of the `mappings` table. -/
def fromBowMapping : Mapping :=
  { path := "sensors.ais.fromBow", key := "A", conversion := some fromBowConversion }

/-- Rule 9 of the `mappings` table. -/
def fromCenterMapping : Mapping :=
  { path := "sensors.ais.fromCenter", key := "C", conversion := some fromCenterConversion }

/-- Rule 10 of the `mappings` table. -/
def lengthMapping : Mapping :=
  { path := "design.length", key := "A", conversion := some lengthConversion }

/-- Rule 11 of the `mappings` table. -/
def beamMapping : Mapping :=
  { path := "design.beam", key := "C", conversion := some beamConversion }

/-- Rule 12 of the `mappings` table. -/
def draughtMapping : Mapping :=
  { path := "design.draft", key := "DRAUGHT", conversion := some draughtConversion }

/-- Rule 13 of the `mappings` table. -/
def positionMapping : Mapping :=
  { path := "navigation.position", key := "LAT", conversion := some positionConversion }

/-- Rule 14 of the `mappings` table. -/
noncomputable def speedMapping : Mapping :=
  { path := "navigation.speedOverGround", key := "SPEED",
    conversion := some speedConversion }

/-- Rule 15 of the `mappings` table. -/
def shipTypeMapping (resolve : JPrim → Option String) : Mapping :=
  { path := "design.aisShipType", key := "SHIPTYPE",
    conversion := some (shipTypeConversion resolve) }

/-- Rule 16 of the `mappings` table. -/
def stateMapping_rule : Mapping :=
  { path := "navigation.state", key := "STATUS", conversion := some stateConversion }

/-- Rule 17 of the `mappings` table. -/
def etaMapping : Mapping :=
  { path := "navigation.courseGreatCircle.activeRoute.estimatedTimeOfArrival",
    key := "ETA", conversion := some etaConversion }

/-- Rule 18 of the `mappings` table. -/
noncomputable def logTripMapping : Mapping :=
  { path := "navigation.logTrip", key := "DISTANCE_TRAVELLED",
    conversion := some logTripConversion }

/-- The `mappings` table of `src/index.js`, in source order. -/
noncomputable def mappings (resolve : JPrim → Option String) : List Mapping :=
  [ mmsiMapping, nameMapping, callsignMapping, imoMapping, courseMapping,
    headingMapping, destinationMapping, fromBowMapping, fromCenterMapping,
    lengthMapping, beamMapping, draughtMapping, positionMapping, speedMapping,
    shipTypeMapping resolve, stateMapping_rule, etaMapping, logTripMapping ]

/-- One `{path, value}` element of a delta's `values` array. -/
structure SKValue where
  path : String
  value : OVal

/-- A normalized event (`delta`): the single update's fields flattened. -/
structure SKDelta where
  context : String
  timestamp : String
  sourceLabel : String
  values : List SKValue

/-- The converted value of one rule: `mapping.conversion` applied when
present, else the raw value passed through.  A `none` result models the
JS `val == null` suppression (the conversion returned `null` or
`undefined`). -/
def convertedValue (vessel : MTRecord) (m : Mapping) (val : JPrim) : Option OVal :=
  match m.conversion with
  | some f => f vessel val
  | none => some (primToOVal val)

/-- The body of the `mappings.forEach` callback in `getVesselDelta`: the
(zero or one) `values` entries one mapping rule contributes for one
record.  Mirrors, in order: the `typeof val !== 'undefined'` guard, the
empty-string skip, the conversion with its `val == null` suppression,
the root-level rewrapping, and `addValue`. -/
def processMapping (vessel : MTRecord) (m : Mapping) : List SKValue :=
  match vesselGet vessel m.key with
  | none => []
  | some val =>
    if val = .str "" then []
    else
      match convertedValue vessel m val with
      | none => []
      | some v =>
        if m.root then [⟨"", .oobj [(m.path, v)]⟩]
        else [⟨m.path, v⟩]

/-- `getVesselDelta` of `src/index.js`.  The function always returns a
delta object (never `null`). -/
noncomputable def getVesselDelta (resolve : JPrim → Option String) (vessel : MTRecord) : SKDelta :=
  { context := "vessels.urn:mrn:imo:mmsi:" ++ strOfOpt vessel.MMSI,
    timestamp := convertTime vessel.TIMESTAMP,
    sourceLabel := "marinetraffic-" ++ strOfOpt vessel.DSRC,
    values := ((mappings resolve).map (processMapping vessel)).flatten }

/-- One error object of an API error envelope. -/
structure ErrObj where
  detail : Option String := none

/-- A parsed batch payload: either an array of raw vessel records or an
`{errors: [...]}` envelope. -/
inductive MTResponse where
  | vessels (batch : List MTRecord)
  | errors (errs : List ErrObj)

/-- `JSON.stringify` of an error's `detail` as it appears in the report
string (a string value is quoted; an absent one stringifies into the
concatenation as "undefined"). -/
def stringifyDetail : Option String → String
  | some s => "\x22" ++ s ++ "\x22"
  | none => "undefined"

/-- Observable outcome of one `marineTrafficToDeltas` call: a report
printed for an error envelope, the handled deltas, or a thrown
`TypeError`. -/
inductive MTResult where
  | errorReport (msg : String)
  | deltas (ds : List SKDelta)
  | crash

/-- `marineTrafficToDeltas` of `src/index.js` on an already-parsed
payload.  An empty `errors` array is truthy in JS, so the error branch
is taken and `status.errors[0].detail` throws a `TypeError`.  The
`delta == null` skip inside the loop is dead code because
`getVesselDelta` always returns an object, so every record's delta is
handled, in batch order. -/
noncomputable def marineTrafficToDeltas (resolve : JPrim → Option String) :
    MTResponse → MTResult
  | .errors [] => .crash
  | .errors (e :: _) =>
    .errorReport ("error response from Marinetraffic: " ++ stringifyDetail e.detail)
  | .vessels batch => .deltas (batch.map (getVesselDelta resolve))

/-- The event sequence a caller observes from one translation. -/
def eventsOf : MTResult → List SKDelta
  | .deltas ds => ds
  | _ => []

/-!
## The geodesic projection utility

`calc_position_from` and its helpers, embedded over the real numbers
(the claim about it is stated "exact over a real-number embedding").
-/

/-- A `{latitude, longitude}` pair in degrees. -/
structure GeoPos where
  latitude : ℝ
  longitude : ℝ

/-- `degsToRad` of `src/index.js`. -/
noncomputable def degsToRad (degrees : ℝ) : ℝ := degrees * (Real.pi / 180)

/-- `radsToDeg` of `src/index.js`. -/
noncomputable def radsToDeg (radians : ℝ) : ℝ := radians * 180 / Real.pi

/-- `mod` of `src/index.js`: floor-based modulo `x - y*Math.floor(x/y)`. -/
noncomputable def jsMod (x y : ℝ) : ℝ := x - y * (⌊x / y⌋ : ℝ)

/-- `Math.atan2(y, x)`. -/
noncomputable def jsAtan2 (y x : ℝ) : ℝ :=
  if 0 < x then Real.arctan (y / x)
  else if x < 0 ∧ 0 ≤ y then Real.arctan (y / x) + Real.pi
  else if x < 0 then Real.arctan (y / x) - Real.pi
  else if 0 < y then Real.pi / 2
  else if y < 0 then -(Real.pi / 2)
  else 0

/-- `calc_position_from` of `src/index.js`: spherical dead-reckoning
from a start position (degrees), heading (radians) and distance
(meters). -/
noncomputable def calc_position_from (position : GeoPos) (heading distance : ℝ) :
    GeoPos :=
  let dist := ((distance / 1000) / 1.852) / (180 * 60 / Real.pi)
  let h := Real.pi * 2 - heading
  let lat := Real.arcsin (Real.sin (degsToRad position.latitude) * Real.cos dist +
    Real.cos (degsToRad position.latitude) * Real.sin dist * Real.cos h)
  let dlon := jsAtan2 (Real.sin h * Real.sin dist * Real.cos (degsToRad position.latitude))
    (Real.cos dist - Real.sin (degsToRad position.latitude) * Real.sin lat)
  let lon := jsMod (degsToRad position.longitude - dlon + Real.pi) (2 * Real.pi) -
    Real.pi
  { latitude := radsToDeg lat, longitude := radsToDeg lon }

/-!
## Concrete data used by witnesses and counterexamples
-/

/-- A concrete ship-type resolver that never resolves (the claims under
test are independent of the external taxonomy collaborator). -/
def resolve0 : JPrim → Option String := fun _ => none

/-- A raw record with every vendor field absent. -/
def emptyRec : MTRecord := {}

/-- The literal one-record batch of spec §8. -/
def testRec : MTRecord :=
  { MMSI := some (.str "304010417"), IMO := some (.str "9015462"),
    LAT := some (.str "47.758499"), LON := some (.str "-5.154223"),
    SPEED := some (.str "74"), HEADING := some (.str "329"),
    COURSE := some (.str "327"), STATUS := some (.str "0"),
    TIMESTAMP := some (.str "2017-05-19T09:39:57"), DSRC := some (.str "TER") }

/-- A record with MMSI and IMO only. -/
def recMMSIandIMO : MTRecord :=
  { MMSI := some (.str "1"), IMO := some (.str "2") }

/-- A record with MMSI only. -/
def recMMSI : MTRecord := { MMSI := some (.str "1") }

/-- A record carrying the four numeric offset fields only. -/
def recOffsets : MTRecord :=
  { A := some (.num 5), B := some (.num 15), C := some (.num 3), D := some (.num 1) }

/-- A record with a LAT but no LON. -/
def recLatOnly : MTRecord := { LAT := some (.str "47.5") }

/-- A record with STATUS 0 only. -/
def recStatus : MTRecord := { STATUS := some (.num 0) }

/-- The `values` entries of a delta whose path equals `p`. -/
def valuesAt (d : SKDelta) (p : String) : List SKValue :=
  d.values.filter (fun e => e.path == p)

/-- An output value that is none of JS `null`, JS `undefined` and the
empty string (the values §3's invariant says never reach `values`). -/
def goodOVal (w : OVal) : Prop :=
  w ≠ .onull ∧ w ≠ .oundef ∧ w ≠ .ostr ""

/-- The fixed §4.1 navigation-state table as the (amended) claim states
it: codes 0–10 and 14 map to the listed strings (with the code's own
spelling of code 3), 15 and every unlisted code are suppressed. -/
def claimedStateTable : ℤ → Option String
  | 0 => some "motoring"
  | 1 => some "anchored"
  | 2 => some "not under command"
  | 3 => some "restricted manouverability"
  | 4 => some "constrained by draft"
  | 5 => some "moored"
  | 6 => some "aground"
  | 7 => some "fishing"
  | 8 => some "sailing"
  | 9 => some "hazardous material high speed"
  | 10 => some "hazardous material wing in ground"
  | 14 => some "ais-sart"
  | _ => none

/-!
## General lemmas about the normalizer
-/

/-- One rule contributes no entry or exactly one: an empty-path
single-field object for a root rule, an entry at the rule's own path
otherwise. -/
theorem processMapping_shape (v : MTRecord) (m : Mapping) :
    processMapping v m = [] ∨
    (∃ w, m.root = true ∧ processMapping v m = [⟨"", .oobj [(m.path, w)]⟩]) ∨
    (∃ w, m.root = false ∧ processMapping v m = [⟨m.path, w⟩]) := by
  unfold processMapping
  split
  · exact Or.inl rfl
  · split
    · exact Or.inl rfl
    · split
      · exact Or.inl rfl
      · split
        · next hroot => exact Or.inr (Or.inl ⟨_, hroot, rfl⟩)
        · next hroot => exact Or.inr (Or.inr ⟨_, by simpa using hroot, rfl⟩)

/-- The entries of a delta are exactly the per-rule contributions. -/
theorem mem_values_iff (resolve : JPrim → Option String) (v : MTRecord)
    (e : SKValue) :
    e ∈ (getVesselDelta resolve v).values ↔
    ∃ m ∈ mappings resolve, e ∈ processMapping v m := by
  simp [getVesselDelta, List.mem_flatten]

/-- Filtering the flattened contributions by a nonempty path keeps only
the non-root rules declared at that path. -/
theorem filter_flatten_eq (v : MTRecord) (p : String) (hp : p ≠ "") :
    ∀ ms : List Mapping,
      ((ms.map (processMapping v)).flatten).filter (fun e => e.path == p) =
      ((ms.filter (fun m => !m.root && m.path == p)).map (processMapping v)).flatten
  | [] => rfl
  | m :: ms => by
    rw [List.map_cons, List.flatten_cons, List.filter_append,
      filter_flatten_eq v p hp ms, List.filter_cons]
    by_cases hm : (!m.root && m.path == p) = true
    · rw [if_pos hm, List.map_cons, List.flatten_cons]
      rcases processMapping_shape v m with h | ⟨w, hroot, h⟩ | ⟨w, hroot, h⟩
      · simp [h]
      · rw [hroot] at hm
        simp at hm
      · rw [h]
        have hpath : (m.path == p) = true := (Bool.and_eq_true _ _ |>.mp hm).2
        simp [List.filter_cons, hpath]
    · rw [if_neg hm]
      rcases processMapping_shape v m with h | ⟨w, hroot, h⟩ | ⟨w, hroot, h⟩
      · simp [h]
      · rw [h]
        have hne : ("" == p) = false := by
          simp only [beq_eq_false_iff_ne, ne_eq]
          exact fun hc => hp hc.symm
        simp [List.filter_cons, hne]
      · rw [h]
        have hpath : (m.path == p) = false := by
          cases hpp : (m.path == p) with
          | false => rfl
          | true => exact absurd (by rw [hroot, hpp]; rfl) hm
        simp [List.filter_cons, hpath]

/-- Filtering the flattened contributions by the empty path keeps only
the root rules, provided no non-root rule is declared at the empty
path. -/
theorem filter_flatten_root (v : MTRecord) :
    ∀ ms : List Mapping, (∀ m ∈ ms, m.root = false → m.path ≠ "") →
      ((ms.map (processMapping v)).flatten).filter (fun e => e.path == "") =
      ((ms.filter (fun m => m.root)).map (processMapping v)).flatten
  | [], _ => rfl
  | m :: ms, hnr => by
    rw [List.map_cons, List.flatten_cons, List.filter_append,
      filter_flatten_root v ms (fun x hx => hnr x (List.mem_cons_of_mem m hx)),
      List.filter_cons]
    by_cases hm : m.root = true
    · rw [if_pos hm, List.map_cons, List.flatten_cons]
      rcases processMapping_shape v m with h | ⟨w, hroot, h⟩ | ⟨w, hroot, h⟩
      · simp [h]
      · rw [h]
        simp [List.filter_cons]
      · rw [hroot] at hm
        simp at hm
    · rw [if_neg hm]
      rcases processMapping_shape v m with h | ⟨w, hroot, h⟩ | ⟨w, hroot, h⟩
      · simp [h]
      · exact absurd hroot hm
      · rw [h]
        have hpe : m.path ≠ "" := hnr m (List.mem_cons_self m ms) hroot
        have hne : (m.path == "") = false := by simpa using hpe
        simp [List.filter_cons, hne]

/-- `valuesAt` at a nonempty path reduces to the unique non-root rule
declared at that path. -/
theorem valuesAt_nonroot (resolve : JPrim → Option String) (v : MTRecord)
    (p : String) (hp : p ≠ "") (m : Mapping)
    (hf : (mappings resolve).filter (fun x => !x.root && x.path == p) = [m]) :
    valuesAt (getVesselDelta resolve v) p = processMapping v m := by
  show ((getVesselDelta resolve v).values).filter (fun e => e.path == p) = _
  rw [show (getVesselDelta resolve v).values =
    ((mappings resolve).map (processMapping v)).flatten from rfl,
    filter_flatten_eq v p hp, hf]
  simp

/-- The `design.length` entries come from rule 10 alone. -/
theorem valuesAt_length (resolve : JPrim → Option String) (v : MTRecord) :
    valuesAt (getVesselDelta resolve v) "design.length" =
    processMapping v lengthMapping := by
  refine valuesAt_nonroot resolve v _ (by decide) _ ?_
  simp [mappings, mmsiMapping, nameMapping, callsignMapping, imoMapping, courseMapping,
    headingMapping, destinationMapping, fromBowMapping, fromCenterMapping, lengthMapping,
    beamMapping, draughtMapping, positionMapping, speedMapping, shipTypeMapping,
    stateMapping_rule, etaMapping, logTripMapping, List.filter_cons]

/-- The `sensors.ais.fromBow` entries come from rule 8 alone. -/
theorem valuesAt_fromBow (resolve : JPrim → Option String) (v : MTRecord) :
    valuesAt (getVesselDelta resolve v) "sensors.ais.fromBow" =
    processMapping v fromBowMapping := by
  refine valuesAt_nonroot resolve v _ (by decide) _ ?_
  simp [mappings, mmsiMapping, nameMapping, callsignMapping, imoMapping, courseMapping,
    headingMapping, destinationMapping, fromBowMapping, fromCenterMapping, lengthMapping,
    beamMapping, draughtMapping, positionMapping, speedMapping, shipTypeMapping,
    stateMapping_rule, etaMapping, logTripMapping, List.filter_cons]

/-- The `design.beam` entries come from rule 11 alone. -/
theorem valuesAt_beam (resolve : JPrim → Option String) (v : MTRecord) :
    valuesAt (getVesselDelta resolve v) "design.beam" =
    processMapping v beamMapping := by
  refine valuesAt_nonroot resolve v _ (by decide) _ ?_
  simp [mappings, mmsiMapping, nameMapping, callsignMapping, imoMapping, courseMapping,
    headingMapping, destinationMapping, fromBowMapping, fromCenterMapping, lengthMapping,
    beamMapping, draughtMapping, positionMapping, speedMapping, shipTypeMapping,
    stateMapping_rule, etaMapping, logTripMapping, List.filter_cons]

/-- The `sensors.ais.fromCenter` entries come from rule 9 alone. -/
theorem valuesAt_fromCenter (resolve : JPrim → Option String) (v : MTRecord) :
    valuesAt (getVesselDelta resolve v) "sensors.ais.fromCenter" =
    processMapping v fromCenterMapping := by
  refine valuesAt_nonroot resolve v _ (by decide) _ ?_
  simp [mappings, mmsiMapping, nameMapping, callsignMapping, imoMapping, courseMapping,
    headingMapping, destinationMapping, fromBowMapping, fromCenterMapping, lengthMapping,
    beamMapping, draughtMapping, positionMapping, speedMapping, shipTypeMapping,
    stateMapping_rule, etaMapping, logTripMapping, List.filter_cons]

/-- The `navigation.position` entries come from rule 13 alone. -/
theorem valuesAt_position (resolve : JPrim → Option String) (v : MTRecord) :
    valuesAt (getVesselDelta resolve v) "navigation.position" =
    processMapping v positionMapping := by
  refine valuesAt_nonroot resolve v _ (by decide) _ ?_
  simp [mappings, mmsiMapping, nameMapping, callsignMapping, imoMapping, courseMapping,
    headingMapping, destinationMapping, fromBowMapping, fromCenterMapping, lengthMapping,
    beamMapping, draughtMapping, positionMapping, speedMapping, shipTypeMapping,
    stateMapping_rule, etaMapping, logTripMapping, List.filter_cons]

/-- The `navigation.state` entries come from rule 16 alone. -/
theorem valuesAt_state (resolve : JPrim → Option String) (v : MTRecord) :
    valuesAt (getVesselDelta resolve v) "navigation.state" =
    processMapping v stateMapping_rule := by
  refine valuesAt_nonroot resolve v _ (by decide) _ ?_
  simp [mappings, mmsiMapping, nameMapping, callsignMapping, imoMapping, courseMapping,
    headingMapping, destinationMapping, fromBowMapping, fromCenterMapping, lengthMapping,
    beamMapping, draughtMapping, positionMapping, speedMapping, shipTypeMapping,
    stateMapping_rule, etaMapping, logTripMapping, List.filter_cons]

/-- The empty-path entries come from the four root rules alone. -/
theorem valuesAt_empty (resolve : JPrim → Option String) (v : MTRecord) :
    valuesAt (getVesselDelta resolve v) "" =
    ([processMapping v mmsiMapping, processMapping v nameMapping,
      processMapping v callsignMapping, processMapping v imoMapping]).flatten := by
  have hnr : ∀ m ∈ mappings resolve, m.root = false → m.path ≠ "" := by
    intro m hm
    simp only [mappings, List.mem_cons, List.not_mem_nil, or_false] at hm
    rcases hm with h | h | h | h | h | h | h | h | h | h | h | h | h | h | h | h | h | h <;>
      subst h <;> simp [mmsiMapping, nameMapping, callsignMapping, imoMapping, courseMapping,
        headingMapping, destinationMapping, fromBowMapping, fromCenterMapping, lengthMapping,
        beamMapping, draughtMapping, positionMapping, speedMapping, shipTypeMapping,
        stateMapping_rule, etaMapping, logTripMapping]
  have hfl : (mappings resolve).filter (fun m => m.root) =
      [mmsiMapping, nameMapping, callsignMapping, imoMapping] := by
    simp [mappings, mmsiMapping, nameMapping, callsignMapping, imoMapping, courseMapping,
      headingMapping, destinationMapping, fromBowMapping, fromCenterMapping, lengthMapping,
      beamMapping, draughtMapping, positionMapping, speedMapping, shipTypeMapping,
      stateMapping_rule, etaMapping, logTripMapping, List.filter_cons]
  show ((getVesselDelta resolve v).values).filter (fun e => e.path == "") = _
  rw [show (getVesselDelta resolve v).values =
    ((mappings resolve).map (processMapping v)).flatten from rfl,
    filter_flatten_root v _ hnr, hfl]
  rfl

/-- A rule whose source field is absent contributes nothing. -/
theorem processMapping_none (v : MTRecord) (m : Mapping)
    (h : vesselGet v m.key = none) : processMapping v m = [] := by
  unfold processMapping
  simp only [h]

/-- Unfolding of one rule on a present, non-empty-string raw value. -/
theorem processMapping_some (v : MTRecord) (m : Mapping) (val : JPrim)
    (h : vesselGet v m.key = some val) (hne : val ≠ .str "") :
    processMapping v m =
      (match convertedValue v m val with
       | none => []
       | some w => if m.root then [⟨"", .oobj [(m.path, w)]⟩] else [⟨m.path, w⟩]) := by
  unfold processMapping
  simp only [h]
  rw [if_neg hne]

/-- A rule whose raw value is the empty string contributes nothing. -/
theorem processMapping_empty_str (v : MTRecord) (m : Mapping)
    (h : vesselGet v m.key = some (.str "")) : processMapping v m = [] := by
  unfold processMapping
  simp only [h]
  simp

/-- Every entry a root rule contributes is an empty-path singleton
object keyed by the rule's path. -/
theorem mem_processMapping_root {v : MTRecord} {m : Mapping} {e : SKValue}
    (hroot : m.root = true) (h : e ∈ processMapping v m) :
    ∃ w, e = ⟨"", .oobj [(m.path, w)]⟩ := by
  rcases processMapping_shape v m with hh | ⟨w, _, hh⟩ | ⟨w, hfalse, hh⟩
  · rw [hh] at h
    exact absurd h (List.not_mem_nil e)
  · rw [hh] at h
    exact ⟨w, by simpa using h⟩
  · rw [hroot] at hfalse
    cases hfalse

/-- Every entry a non-root rule contributes sits at the rule's path. -/
theorem mem_processMapping_nonroot {v : MTRecord} {m : Mapping} {e : SKValue}
    (hroot : m.root = false) (h : e ∈ processMapping v m) :
    ∃ w, e = ⟨m.path, w⟩ := by
  rcases processMapping_shape v m with hh | ⟨w, htrue, hh⟩ | ⟨w, _, hh⟩
  · rw [hh] at h
    exact absurd h (List.not_mem_nil e)
  · rw [hroot] at htrue
    cases htrue
  · rw [hh] at h
    exact ⟨w, by simpa using h⟩

/-!
## The claims
-/

/-- **C2, counterexample.**  A record in which both MMSI and IMO
resolve produces two empty-path entries — each root rule appends its
own fresh single-field object — not one merged object. -/
theorem claim2_counterexample :
    valuesAt (getVesselDelta resolve0 recMMSIandIMO) "" =
      [⟨"", .oobj [("mmsi", .ostr "1")]⟩, ⟨"", .oobj [("imo", .ostr "2")]⟩] ∧
    (valuesAt (getVesselDelta resolve0 recMMSIandIMO) "").length ≠ 1 := by
  have hval : valuesAt (getVesselDelta resolve0 recMMSIandIMO) "" =
      [⟨"", .oobj [("mmsi", .ostr "1")]⟩, ⟨"", .oobj [("imo", .ostr "2")]⟩] := by
    rw [valuesAt_empty]
    rfl
  exact ⟨hval, by rw [hval]; simp⟩

/-- **C2, amended.**  Each resolved root-level rule contributes its own
`values` entry with an empty path whose value is a one-field object
keyed by that rule's destination path (one entry per resolved root
field, not one merged object), and root-level fields never appear as
entries at their own destination paths. -/
theorem claim2_root_entries_singleton (resolve : JPrim → Option String)
    (v : MTRecord) :
    (∀ e ∈ (getVesselDelta resolve v).values, e.path = "" →
      ∃ k w, e.value = .oobj [(k, w)] ∧
        (k = "mmsi" ∨ k = "name" ∨ k = "callsign" ∨ k = "imo")) ∧
    (∀ e ∈ (getVesselDelta resolve v).values,
      e.path ≠ "mmsi" ∧ e.path ≠ "name" ∧ e.path ≠ "callsign" ∧ e.path ≠ "imo") := by
  constructor
  · intro e he hpath
    rw [mem_values_iff] at he
    obtain ⟨m, hm, hpm⟩ := he
    simp only [mappings, List.mem_cons, List.not_mem_nil, or_false] at hm
    rcases hm with h|h|h|h|h|h|h|h|h|h|h|h|h|h|h|h|h|h <;> subst h
    all_goals try
      (obtain ⟨w, hw⟩ := mem_processMapping_nonroot rfl hpm
       subst hw
       exact absurd hpath (by simp [mmsiMapping, nameMapping, callsignMapping, imoMapping, courseMapping, headingMapping, destinationMapping, fromBowMapping, fromCenterMapping, lengthMapping, beamMapping, draughtMapping, positionMapping, speedMapping, shipTypeMapping, stateMapping_rule, etaMapping, logTripMapping]))
    · obtain ⟨w, hw⟩ := mem_processMapping_root rfl hpm
      subst hw
      exact ⟨"mmsi", w, rfl, Or.inl rfl⟩
    · obtain ⟨w, hw⟩ := mem_processMapping_root rfl hpm
      subst hw
      exact ⟨"name", w, rfl, Or.inr (Or.inl rfl)⟩
    · obtain ⟨w, hw⟩ := mem_processMapping_root rfl hpm
      subst hw
      exact ⟨"callsign", w, rfl, Or.inr (Or.inr (Or.inl rfl))⟩
    · obtain ⟨w, hw⟩ := mem_processMapping_root rfl hpm
      subst hw
      exact ⟨"imo", w, rfl, Or.inr (Or.inr (Or.inr rfl))⟩
  · intro e he
    rw [mem_values_iff] at he
    obtain ⟨m, hm, hpm⟩ := he
    simp only [mappings, List.mem_cons, List.not_mem_nil, or_false] at hm
    rcases hm with h|h|h|h|h|h|h|h|h|h|h|h|h|h|h|h|h|h <;> subst h
    all_goals try
      (obtain ⟨w, hw⟩ := mem_processMapping_root rfl hpm
       subst hw
       simp [mmsiMapping, nameMapping, callsignMapping, imoMapping, courseMapping, headingMapping, destinationMapping, fromBowMapping, fromCenterMapping, lengthMapping, beamMapping, draughtMapping, positionMapping, speedMapping, shipTypeMapping, stateMapping_rule, etaMapping, logTripMapping])
    all_goals
      (obtain ⟨w, hw⟩ := mem_processMapping_nonroot rfl hpm
       subst hw
       simp [mmsiMapping, nameMapping, callsignMapping, imoMapping, courseMapping, headingMapping, destinationMapping, fromBowMapping, fromCenterMapping, lengthMapping, beamMapping, draughtMapping, positionMapping, speedMapping, shipTypeMapping, stateMapping_rule, etaMapping, logTripMapping])

/-- **C2, witness.**  On a record with only an MMSI, the single
empty-path entry is the one-field object keyed "mmsi". -/
theorem claim2_witness :
    ((⟨"", .oobj [("mmsi", .ostr "1")]⟩ : SKValue) ∈
      (getVesselDelta resolve0 recMMSI).values ∧
     (⟨"", .oobj [("mmsi", .ostr "1")]⟩ : SKValue).path = "") ∧
    ∃ k w, (⟨"", .oobj [("mmsi", .ostr "1")]⟩ : SKValue).value = .oobj [(k, w)] ∧
      (k = "mmsi" ∨ k = "name" ∨ k = "callsign" ∨ k = "imo") := by
  have hmem : (⟨"", .oobj [("mmsi", .ostr "1")]⟩ : SKValue) ∈
      (getVesselDelta resolve0 recMMSI).values := by
    rw [show (getVesselDelta resolve0 recMMSI).values =
      [⟨"", .oobj [("mmsi", .ostr "1")]⟩] from rfl]
    exact List.Mem.head _
  exact ⟨⟨hmem, rfl⟩,
    (claim2_root_entries_singleton resolve0 recMMSI).1 _ hmem rfl⟩

/-- **C1, counterexample.**  The claim says a record with no MMSI field
is silently skipped by the batch translator; in fact `getVesselDelta`
never returns `null`, so the all-absent record still yields one event,
with the MMSI slot of the context rendered from `undefined`. -/
theorem claim1_counterexample :
    emptyRec.MMSI = none ∧
    eventsOf (marineTrafficToDeltas resolve0 (.vessels [emptyRec])) ≠ [] ∧
    (getVesselDelta resolve0 emptyRec).context = "vessels.urn:mrn:imo:mmsi:undefined" := by
  refine ⟨rfl, ?_, rfl⟩
  simp [marineTrafficToDeltas, eventsOf]

/-- **C1, amended.**  The batch translator produces exactly one event
per raw record, in batch order, whether or not the record carries an
MMSI: the `delta == null` skip is dead code because `getVesselDelta`
always returns a delta. -/
theorem claim1_every_record_yields_event (resolve : JPrim → Option String)
    (batch : List MTRecord) :
    eventsOf (marineTrafficToDeltas resolve (.vessels batch)) =
      batch.map (getVesselDelta resolve) ∧
    (eventsOf (marineTrafficToDeltas resolve (.vessels batch))).length =
      batch.length := by
  refine ⟨rfl, ?_⟩
  simp [marineTrafficToDeltas, eventsOf]

/-- **C4, counterexample.**  For status code 3 the conversion returns
the code's string "restricted manouverability", not the claimed
spelling "restricted manoeuvrability". -/
theorem claim4_counterexample :
    stateConversion emptyRec (.num 3) = some (.ostr "restricted manouverability") ∧
    stateConversion emptyRec (.num 3) ≠ some (.ostr "restricted manoeuvrability") := by
  refine ⟨rfl, ?_⟩
  intro h
  rw [show stateConversion emptyRec (.num 3) =
    some (.ostr "restricted manouverability") from rfl] at h
  simp only [Option.some.injEq, OVal.ostr.injEq] at h
  exact absurd h (by decide)

/-- **C4, amended.**  For every numeric status code the
`navigation.state` output follows the fixed table (with the code's
spelling "restricted manouverability" for code 3): codes 0–10 and 14
map to their strings, 15 and every other code — including every
non-integral code — are suppressed and absent from the event. -/
theorem claim4_state_table (resolve : JPrim → Option String) (v : MTRecord)
    (q : ℚ) (h : v.STATUS = some (.num q)) :
    valuesAt (getVesselDelta resolve v) "navigation.state" =
      (match (if q.den = 1 then claimedStateTable q.num else none) with
       | some s => [⟨"navigation.state", .ostr s⟩]
       | none => []) ∧
    stateMappingLookup (.num q) =
      (if q.den = 1 then claimedStateTable q.num else none) := by
  have htbl : stateMappingInt = claimedStateTable := funext fun n => rfl
  have hlook : stateMappingLookup (.num q) =
      (if q.den = 1 then claimedStateTable q.num else none) := by
    unfold stateMappingLookup
    rw [htbl]
  refine ⟨?_, hlook⟩
  rw [valuesAt_state,
    processMapping_some v stateMapping_rule (.num q) h (by simp)]
  rw [show convertedValue v stateMapping_rule (.num q) =
    stateConversion v (.num q) from rfl]
  unfold stateConversion
  rw [hlook]
  cases hd : (if q.den = 1 then claimedStateTable q.num else none) with
  | none => rfl
  | some s => rfl

/-- **C4, witness.**  Status code 0 maps to "motoring" in the event. -/
theorem claim4_witness :
    recStatus.STATUS = some (.num 0) ∧
    valuesAt (getVesselDelta resolve0 recStatus) "navigation.state" =
      [⟨"navigation.state", .ostr "motoring"⟩] := by
  refine ⟨rfl, ?_⟩
  rw [(claim4_state_table resolve0 recStatus 0 rfl).1]
  rfl

/-- `fromBowConversion` on numeric offsets. -/
theorem fromBowConversion_num (v : MTRecord) (a b : ℚ)
    (hA : v.A = some (.num a)) (hB : v.B = some (.num b)) :
    fromBowConversion v (.num a) =
      if a + b = 0 then none else some (.onum ((a : ℚ) : ℝ)) := by
  unfold fromBowConversion
  rw [hA, hB]
  rw [show jsAdd (JComp.ofOpt (some (JPrim.num a))) (JComp.ofOpt (some (JPrim.num b))) =
    .num (a + b) from rfl]
  by_cases h : a + b = 0
  · simp [jsEqNum, JComp.toNum, h]
  · simp [jsEqNum, JComp.toNum, h, primToOVal]

/-- `lengthConversion` on numeric offsets. -/
theorem lengthConversion_num (v : MTRecord) (a b : ℚ)
    (hB : v.B = some (.num b)) :
    lengthConversion v (.num a) =
      if a + b = 0 then none
      else some (.oobj [("overall", .onum ((a + b : ℚ) : ℝ))]) := by
  unfold lengthConversion
  rw [hB]
  rw [show jsAdd (JComp.ofOpt (some (JPrim.num b))) (JComp.ofPrim (JPrim.num a)) =
    .num (b + a) from rfl, add_comm b a]
  by_cases h : a + b = 0
  · simp [jsEqNum, JComp.toNum, h]
  · simp [jsEqNum, JComp.toNum, h, JComp.toOVal]

/-- `beamConversion` on numeric offsets. -/
theorem beamConversion_num (v : MTRecord) (c d : ℚ)
    (hD : v.D = some (.num d)) :
    beamConversion v (.num c) =
      if c + d = 0 then none else some (.onum ((c + d : ℚ) : ℝ)) := by
  unfold beamConversion
  rw [hD]
  rw [show jsAdd (JComp.ofPrim (JPrim.num c)) (JComp.ofOpt (some (JPrim.num d))) =
    .num (c + d) from rfl]
  by_cases h : c + d = 0
  · simp [jsEqNum, JComp.toNum, h]
  · simp [jsEqNum, JComp.toNum, h, JComp.toOVal]

/-- `fromCenterConversion` on numeric offsets. -/
theorem fromCenterConversion_num (v : MTRecord) (c d : ℚ) (val : JPrim)
    (hC : v.C = some (.num c)) (hD : v.D = some (.num d)) :
    fromCenterConversion v val =
      if c + d = 0 then none
      else if (c + d) / 2 < d then
        some (.onum (((d - (c + d) / 2) * -1 : ℚ) : ℝ))
      else some (.onum (((c + d) / 2 - d : ℚ) : ℝ)) := by
  unfold fromCenterConversion
  rw [hC, hD]
  rw [show jsAdd (JComp.ofOpt (some (JPrim.num c))) (JComp.ofOpt (some (JPrim.num d))) =
    .num (c + d) from rfl]
  rw [show jsDivConst (JComp.num (c + d)) 2 = .num ((c + d) / 2) from rfl]
  rw [show jsGtNum (JComp.ofOpt (some (JPrim.num d))) (.num ((c + d) / 2)) =
    decide ((c + d) / 2 < d) from rfl]
  rw [show jsSub (JComp.ofOpt (some (JPrim.num d))) (.num ((c + d) / 2)) =
    .num (d - (c + d) / 2) from rfl]
  rw [show jsMulConst (JComp.num (d - (c + d) / 2)) (-1) =
    .num ((d - (c + d) / 2) * -1) from rfl]
  rw [show jsSub (JComp.num ((c + d) / 2)) (JComp.ofOpt (some (JPrim.num d))) =
    .num ((c + d) / 2 - d) from rfl]
  by_cases h : c + d = 0
  · simp [jsEqNum, JComp.toNum, h]
  · by_cases hgt : (c + d) / 2 < d
    · simp [jsEqNum, JComp.toNum, h, hgt, JComp.toOVal]
    · simp [jsEqNum, JComp.toNum, h, hgt, JComp.toOVal]

/-- **C5, confirmed.**  For numeric offset fields A, B, C, D:
`design.length` is `{overall: A+B}` and `sensors.ais.fromBow` is the
raw A, both present exactly when `A+B` is nonzero; `design.beam` is
`C+D`, present exactly when `C+D` is nonzero; `sensors.ais.fromCenter`
(with `width = C+D`) is suppressed exactly when `width` is zero, is
`-(D - width/2)` when `D > width/2` and `width/2 - D` otherwise. -/
theorem claim5_offsets (resolve : JPrim → Option String) (v : MTRecord)
    (a b c d : ℚ)
    (hA : v.A = some (.num a)) (hB : v.B = some (.num b))
    (hC : v.C = some (.num c)) (hD : v.D = some (.num d)) :
    (valuesAt (getVesselDelta resolve v) "design.length" =
      if a + b = 0 then []
      else [⟨"design.length", .oobj [("overall", .onum ((a + b : ℚ) : ℝ))]⟩]) ∧
    (valuesAt (getVesselDelta resolve v) "sensors.ais.fromBow" =
      if a + b = 0 then [] else [⟨"sensors.ais.fromBow", .onum ((a : ℚ) : ℝ)⟩]) ∧
    (valuesAt (getVesselDelta resolve v) "design.beam" =
      if c + d = 0 then [] else [⟨"design.beam", .onum ((c + d : ℚ) : ℝ)⟩]) ∧
    (valuesAt (getVesselDelta resolve v) "sensors.ais.fromCenter" =
      if c + d = 0 then []
      else if d > (c + d) / 2 then
        [⟨"sensors.ais.fromCenter", .onum ((-(d - (c + d) / 2) : ℚ) : ℝ)⟩]
      else [⟨"sensors.ais.fromCenter", .onum (((c + d) / 2 - d : ℚ) : ℝ)⟩]) := by
  refine ⟨?_, ?_, ?_, ?_⟩
  · rw [valuesAt_length, processMapping_some v lengthMapping (.num a) hA (by simp),
      show convertedValue v lengthMapping (.num a) =
        lengthConversion v (.num a) from rfl,
      lengthConversion_num v a b hB]
    by_cases h : a + b = 0
    · simp [h]
    · simp [h, lengthMapping]
  · rw [valuesAt_fromBow, processMapping_some v fromBowMapping (.num a) hA (by simp),
      show convertedValue v fromBowMapping (.num a) =
        fromBowConversion v (.num a) from rfl,
      fromBowConversion_num v a b hA hB]
    by_cases h : a + b = 0
    · simp [h]
    · simp [h, fromBowMapping]
  · rw [valuesAt_beam, processMapping_some v beamMapping (.num c) hC (by simp),
      show convertedValue v beamMapping (.num c) =
        beamConversion v (.num c) from rfl,
      beamConversion_num v c d hD]
    by_cases h : c + d = 0
    · simp [h]
    · simp [h, beamMapping]
  · rw [valuesAt_fromCenter, processMapping_some v fromCenterMapping (.num c) hC (by simp),
      show convertedValue v fromCenterMapping (.num c) =
        fromCenterConversion v (.num c) from rfl,
      fromCenterConversion_num v c d (.num c) hC hD]
    by_cases h : c + d = 0
    · simp [h]
    · by_cases hgt : (c + d) / 2 < d
      · rw [if_neg h, if_pos hgt]
        have : ((d - (c + d) / 2) * -1 : ℚ) = (-(d - (c + d) / 2) : ℚ) := by ring
        simp [h, hgt, fromCenterMapping, this, gt_iff_lt]
      · rw [if_neg h, if_neg hgt]
        simp [h, hgt, fromCenterMapping, gt_iff_lt]

/-- **C5, witness.**  Concrete offsets A=5, B=15, C=3, D=1. -/
theorem claim5_witness :
    (recOffsets.A = some (.num 5) ∧ recOffsets.B = some (.num 15) ∧
     recOffsets.C = some (.num 3) ∧ recOffsets.D = some (.num 1)) ∧
    (valuesAt (getVesselDelta resolve0 recOffsets) "design.length" =
      if (5 : ℚ) + 15 = 0 then []
      else [⟨"design.length", .oobj [("overall", .onum (((5 : ℚ) + 15 : ℚ) : ℝ))]⟩]) ∧
    (valuesAt (getVesselDelta resolve0 recOffsets) "sensors.ais.fromCenter" =
      if (3 : ℚ) + 1 = 0 then []
      else if (1 : ℚ) > ((3 : ℚ) + 1) / 2 then
        [⟨"sensors.ais.fromCenter", .onum ((-((1 : ℚ) - ((3 : ℚ) + 1) / 2) : ℚ) : ℝ)⟩]
      else [⟨"sensors.ais.fromCenter", .onum ((((3 : ℚ) + 1) / 2 - 1 : ℚ) : ℝ)⟩]) := by
  refine ⟨⟨rfl, rfl, rfl, rfl⟩, ?_, ?_⟩
  · exact (claim5_offsets resolve0 recOffsets 5 15 3 1 rfl rfl rfl rfl).1
  · exact (claim5_offsets resolve0 recOffsets 5 15 3 1 rfl rfl rfl rfl).2.2.2

/-- A string of positive length is not the empty string. -/
theorem length_pos_ne_empty {s : String} (h : 0 < s.length) : s ≠ "" := by
  intro hc
  rw [hc] at h
  simp at h

/-- A nonempty string has positive length. -/
theorem ne_empty_length_pos {s : String} (h : s ≠ "") : 0 < s.length := by
  cases s with
  | mk data =>
    cases data with
    | nil => exact absurd rfl h
    | cons c cs => simp [String.length]

/-- Appending to a nonempty string stays nonempty. -/
theorem append_ne_empty_of_left {a : String} (b : String) (h : a ≠ "") :
    a ++ b ≠ "" := by
  refine length_pos_ne_empty ?_
  rw [String.length_append]
  have := ne_empty_length_pos h
  omega

/-- Appending a nonempty string stays nonempty. -/
theorem append_ne_empty_of_right (a : String) {b : String} (h : b ≠ "") :
    a ++ b ≠ "" := by
  refine length_pos_ne_empty ?_
  rw [String.length_append]
  have := ne_empty_length_pos h
  omega

/-- A one-character string is nonempty. -/
theorem singleton_ne_empty (c : Char) : String.singleton c ≠ "" := by
  refine length_pos_ne_empty ?_
  simp [String.singleton]

/-- The fueled decimal rendering with positive fuel is nonempty. -/
theorem natToStrAux_ne_empty (fuel n : ℕ) : natToStrAux (fuel + 1) n ≠ "" := by
  unfold natToStrAux
  by_cases h : n < 10
  · rw [if_pos h]
    exact singleton_ne_empty _
  · rw [if_neg h]
    exact append_ne_empty_of_right _ (singleton_ne_empty _)

/-- Decimal renderings of naturals are nonempty. -/
theorem natToStr_ne_empty (n : ℕ) : natToStr n ≠ "" := natToStrAux_ne_empty n n

/-- Decimal renderings of integers are nonempty. -/
theorem intToStr_ne_empty (z : ℤ) : intToStr z ≠ "" := by
  unfold intToStr
  by_cases h : z < 0
  · rw [if_pos h]
    exact append_ne_empty_of_left _ (by decide)
  · rw [if_neg h]
    exact natToStr_ne_empty _

/-- Number renderings are nonempty. -/
theorem numToStr_ne_empty (q : ℚ) : numToStr q ≠ "" := by
  unfold numToStr
  by_cases h : q.den = 1
  · rw [if_pos h]
    exact intToStr_ne_empty _
  · rw [if_neg h]
    exact append_ne_empty_of_left _ (append_ne_empty_of_left _ (intToStr_ne_empty _))

/-- The `ToString` of a primitive other than the empty string is
nonempty. -/
theorem jprim_toStr_ne_empty {p : JPrim} (h : p ≠ .str "") : p.toStr ≠ "" := by
  cases p with
  | str s =>
    intro hc
    exact h (by rw [show s = "" from hc])
  | num q => exact numToStr_ne_empty q

/-- **C6, counterexample.**  With LAT present and LON absent the
emitted position object carries an explicit longitude entry whose value
is `NaN` (JS `parseFloat(undefined)`), not an absent/undefined
longitude as the claim states. -/
theorem claim6_counterexample :
    valuesAt (getVesselDelta resolve0 recLatOnly) "navigation.position" =
      [⟨"navigation.position",
        .oobj [("latitude",
          .onum ((((47 : ℕ) : ℚ) + ((5 : ℕ) : ℚ) / (10 : ℚ) ^ (1 : ℕ) : ℚ) : ℝ)),
          ("longitude", .onan)]⟩] ∧
    OVal.onan ≠ OVal.oundef := by
  constructor
  · rw [valuesAt_position]
    rfl
  · intro h
    cases h

/-- **C6, amended.**  For every record whose LAT is present (and not
the empty string) and whose LON is absent, the event contains a
`navigation.position` entry whose latitude is LAT parsed as floating
point and whose longitude is present with the value `NaN`. -/
theorem claim6_position_nan_longitude (resolve : JPrim → Option String)
    (v : MTRecord) (p : JPrim)
    (hLAT : v.LAT = some p) (hne : p ≠ .str "") (hLON : v.LON = none) :
    valuesAt (getVesselDelta resolve v) "navigation.position" =
      [⟨"navigation.position",
        .oobj [("latitude", parseFloatOVal (.ofPrim p)), ("longitude", .onan)]⟩] := by
  rw [valuesAt_position, processMapping_some v positionMapping p hLAT hne,
    show convertedValue v positionMapping p = positionConversion v p from rfl]
  unfold positionConversion
  rw [hLON]
  rfl

/-- **C6, witness.**  LAT "47.5", LON absent. -/
theorem claim6_witness :
    (recLatOnly.LAT = some (.str "47.5") ∧ (JPrim.str "47.5") ≠ .str "" ∧
     recLatOnly.LON = none) ∧
    valuesAt (getVesselDelta resolve0 recLatOnly) "navigation.position" =
      [⟨"navigation.position",
        .oobj [("latitude", parseFloatOVal (.ofPrim (.str "47.5"))),
          ("longitude", .onan)]⟩] :=
  ⟨⟨rfl, by simp, rfl⟩,
    claim6_position_nan_longitude resolve0 recLatOnly (.str "47.5") rfl (by simp) rfl⟩

/-- Elimination principle for membership in one rule's contribution:
the raw value was present and non-empty, the conversion succeeded, and
the entry has the root or non-root shape. -/
theorem mem_processMapping_elim {v : MTRecord} {m : Mapping} {e : SKValue}
    (h : e ∈ processMapping v m) :
    ∃ val w, vesselGet v m.key = some val ∧ val ≠ .str "" ∧
      convertedValue v m val = some w ∧
      e = if m.root then (⟨"", .oobj [(m.path, w)]⟩ : SKValue)
          else ⟨m.path, w⟩ := by
  unfold processMapping at h
  cases hv : vesselGet v m.key with
  | none =>
    simp only [hv] at h
    exact absurd h (List.not_mem_nil e)
  | some val =>
    simp only [hv] at h
    by_cases hne : val = .str ""
    · rw [if_pos hne] at h
      exact absurd h (List.not_mem_nil e)
    · rw [if_neg hne] at h
      cases hc : convertedValue v m val with
      | none =>
        simp only [hc] at h
        exact absurd h (List.not_mem_nil e)
      | some w =>
        simp only [hc] at h
        refine ⟨val, w, rfl, hne, hc, ?_⟩
        by_cases hroot : m.root
        · rw [if_pos hroot] at h ⊢
          simpa using h
        · rw [if_neg hroot] at h ⊢
          simpa using h

/-- `ofPrim` commutes with `ToString`. -/
theorem ofPrim_toStr (p : JPrim) : (JComp.ofPrim p).toStr = p.toStr := by
  cases p <;> rfl

/-- `degsToRadC` only produces numbers or `NaN`. -/
theorem degsToRadC_good (val : JPrim) : goodOVal (degsToRadC val) := by
  unfold degsToRadC
  cases h : (JComp.ofPrim val).toNum <;> simp [goodOVal]

/-- `jsSub` viewed as an output value is a number or `NaN`. -/
theorem jsSub_toOVal_good (a b : JComp) : goodOVal (jsSub a b).toOVal := by
  unfold jsSub
  cases ha : a.toNum <;> cases hb : b.toNum <;> simp [goodOVal, JComp.toOVal]

/-- `jsMulConst` viewed as an output value is a number or `NaN`. -/
theorem jsMulConst_toOVal_good (a : JComp) (d : ℚ) :
    goodOVal (jsMulConst a d).toOVal := by
  unfold jsMulConst
  cases ha : a.toNum <;> simp [goodOVal, JComp.toOVal]

/-- `jsAdd` viewed as an output value is never `null`, `undefined` or
the empty string, provided one operand stringifies nonempty. -/
theorem jsAdd_toOVal_good (a b : JComp) (h : a.toStr ≠ "" ∨ b.toStr ≠ "") :
    goodOVal (jsAdd a b).toOVal := by
  unfold jsAdd
  cases a with
  | str s =>
    cases b with
    | str t =>
      simp only [goodOVal, JComp.toOVal, JComp.toStr]
      refine ⟨by simp, by simp, ?_⟩
      simp only [ne_eq, OVal.ostr.injEq]
      rcases h with h | h
      · exact append_ne_empty_of_left _ (by simpa [JComp.toStr] using h)
      · exact append_ne_empty_of_right _ (by simpa [JComp.toStr] using h)
    | undef =>
      simp only [goodOVal, JComp.toOVal, JComp.toStr]
      refine ⟨by simp, by simp, ?_⟩
      simp only [ne_eq, OVal.ostr.injEq]
      exact append_ne_empty_of_right _ (by decide)
    | nan =>
      simp only [goodOVal, JComp.toOVal, JComp.toStr]
      refine ⟨by simp, by simp, ?_⟩
      simp only [ne_eq, OVal.ostr.injEq]
      exact append_ne_empty_of_right _ (by decide)
    | num q =>
      simp only [goodOVal, JComp.toOVal, JComp.toStr]
      refine ⟨by simp, by simp, ?_⟩
      simp only [ne_eq, OVal.ostr.injEq]
      exact append_ne_empty_of_right _ (numToStr_ne_empty q)
  | undef =>
    cases b with
    | str t =>
      simp only [goodOVal, JComp.toOVal, JComp.toStr]
      refine ⟨by simp, by simp, ?_⟩
      simp only [ne_eq, OVal.ostr.injEq]
      exact append_ne_empty_of_left _ (by decide)
    | undef => simp [goodOVal, JComp.toOVal, JComp.toNum]
    | nan => simp [goodOVal, JComp.toOVal, JComp.toNum]
    | num q => simp [goodOVal, JComp.toOVal, JComp.toNum]
  | nan =>
    cases b with
    | str t =>
      simp only [goodOVal, JComp.toOVal, JComp.toStr]
      refine ⟨by simp, by simp, ?_⟩
      simp only [ne_eq, OVal.ostr.injEq]
      exact append_ne_empty_of_left _ (by decide)
    | undef => simp [goodOVal, JComp.toOVal, JComp.toNum]
    | nan => simp [goodOVal, JComp.toOVal, JComp.toNum]
    | num q => simp [goodOVal, JComp.toOVal, JComp.toNum]
  | num q =>
    cases b with
    | str t =>
      simp only [goodOVal, JComp.toOVal, JComp.toStr]
      refine ⟨by simp, by simp, ?_⟩
      simp only [ne_eq, OVal.ostr.injEq]
      exact append_ne_empty_of_left _ (numToStr_ne_empty q)
    | undef => simp [goodOVal, JComp.toOVal, JComp.toNum]
    | nan => simp [goodOVal, JComp.toOVal, JComp.toNum]
    | num r => simp [goodOVal, JComp.toOVal, JComp.toNum]

/-- Strings produced by the string-keyed state table are nonempty. -/
theorem stateMappingStr_some_ne_empty {s t : String}
    (h : stateMappingStr s = some t) : t ≠ "" := by
  unfold stateMappingStr at h
  split at h
  all_goals try cases h
  all_goals decide

/-- Strings produced by the integer-keyed state table are nonempty. -/
theorem stateMappingInt_some_ne_empty {n : ℤ} {t : String}
    (h : stateMappingInt n = some t) : t ≠ "" := by
  unfold stateMappingInt at h
  split at h
  all_goals try cases h
  all_goals decide

/-- Strings produced by the state lookup are nonempty. -/
theorem stateMappingLookup_some_ne_empty {p : JPrim} {t : String}
    (h : stateMappingLookup p = some t) : t ≠ "" := by
  cases p with
  | str s => exact stateMappingStr_some_ne_empty (by simpa [stateMappingLookup] using h)
  | num q =>
    rw [show stateMappingLookup (.num q) =
      (if q.den = 1 then stateMappingInt q.num else none) from rfl] at h
    by_cases hd : q.den = 1
    · rw [if_pos hd] at h
      exact stateMappingInt_some_ne_empty h
    · rw [if_neg hd] at h
      cases h

/-- Every successful conversion of a present, non-empty raw value
produces a value that is neither `null`, `undefined` nor the empty
string. -/
theorem convertedValue_good (resolve : JPrim → Option String) (v : MTRecord)
    (m : Mapping) (val : JPrim) (w : OVal)
    (hm : m ∈ mappings resolve) (hne : val ≠ .str "")
    (hconv : convertedValue v m val = some w) : goodOVal w := by
  have hprim : goodOVal (primToOVal val) := by
    cases val with
    | str s =>
      refine ⟨by simp [primToOVal], by simp [primToOVal], ?_⟩
      simp only [primToOVal, ne_eq, OVal.ostr.injEq]
      intro hc
      exact hne (by rw [hc])
    | num q => simp [primToOVal, goodOVal]
  simp only [mappings, List.mem_cons, List.not_mem_nil, or_false] at hm
  rcases hm with h|h|h|h|h|h|h|h|h|h|h|h|h|h|h|h|h|h <;> subst h <;>
    simp only [convertedValue, mmsiMapping, nameMapping, callsignMapping, imoMapping,
      courseMapping, headingMapping, destinationMapping, fromBowMapping,
      fromCenterMapping, lengthMapping, beamMapping, draughtMapping, positionMapping,
      speedMapping, shipTypeMapping, stateMapping_rule, etaMapping,
      logTripMapping] at hconv
  · -- mmsi: numberToString
    unfold numberToString at hconv
    cases hconv
    exact ⟨by simp, by simp, by simpa using jprim_toStr_ne_empty hne⟩
  · -- name: raw pass-through
    cases hconv
    exact hprim
  · -- callsign: raw pass-through
    cases hconv
    exact hprim
  · -- imo: numberToString
    unfold numberToString at hconv
    cases hconv
    exact ⟨by simp, by simp, by simpa using jprim_toStr_ne_empty hne⟩
  · -- course
    unfold courseConversion at hconv
    by_cases hs : jsEqNum (.ofPrim val) 360 = true
    · rw [if_pos hs] at hconv
      cases hconv
    · rw [if_neg hs] at hconv
      cases hconv
      exact degsToRadC_good val
  · -- heading
    unfold headingConversion at hconv
    by_cases hs : jsEqNum (.ofPrim val) 511 = true
    · rw [if_pos hs] at hconv
      cases hconv
    · rw [if_neg hs] at hconv
      cases hconv
      exact degsToRadC_good val
  · -- destination: raw pass-through
    cases hconv
    exact hprim
  · -- fromBow
    unfold fromBowConversion at hconv
    by_cases hs : jsEqNum (jsAdd (.ofOpt v.A) (.ofOpt v.B)) 0 = true
    · rw [if_pos hs] at hconv
      cases hconv
    · rw [if_neg hs] at hconv
      cases hconv
      exact hprim
  · -- fromCenter
    unfold fromCenterConversion at hconv
    by_cases hs : jsEqNum (jsAdd (.ofOpt v.C) (.ofOpt v.D)) 0 = true
    · rw [if_pos hs] at hconv
      cases hconv
    · rw [if_neg hs] at hconv
      by_cases hg : jsGtNum (.ofOpt v.D)
          (jsDivConst (jsAdd (.ofOpt v.C) (.ofOpt v.D)) 2) = true
      · rw [if_pos hg] at hconv
        cases hconv
        exact jsMulConst_toOVal_good _ _
      · rw [if_neg hg] at hconv
        cases hconv
        exact jsSub_toOVal_good _ _
  · -- length
    unfold lengthConversion at hconv
    by_cases hs : jsEqNum (jsAdd (.ofOpt v.B) (.ofPrim val)) 0 = true
    · rw [if_pos hs] at hconv
      cases hconv
    · rw [if_neg hs] at hconv
      cases hconv
      exact ⟨by simp, by simp, by simp⟩
  · -- beam
    unfold beamConversion at hconv
    by_cases hs : jsEqNum (jsAdd (.ofPrim val) (.ofOpt v.D)) 0 = true
    · rw [if_pos hs] at hconv
      cases hconv
    · rw [if_neg hs] at hconv
      cases hconv
      refine jsAdd_toOVal_good _ _ (Or.inl ?_)
      rw [ofPrim_toStr]
      exact jprim_toStr_ne_empty hne
  · -- draught
    unfold draughtConversion at hconv
    by_cases hs : jsEqNum (.ofPrim val) 0 = true
    · rw [if_pos hs] at hconv
      cases hconv
    · rw [if_neg hs] at hconv
      cases hconv
      exact ⟨by simp, by simp, by simp⟩
  · -- position
    unfold positionConversion at hconv
    cases hconv
    exact ⟨by simp, by simp, by simp⟩
  · -- speed
    unfold speedConversion at hconv
    cases hn : (JComp.ofPrim val).toNum with
    | none =>
      simp only [hn] at hconv
      cases hconv
      simp [goodOVal]
    | some q =>
      simp only [hn] at hconv
      cases hconv
      simp [goodOVal]
  · -- shipType
    unfold shipTypeConversion at hconv
    cases hr : resolve val with
    | none =>
      simp only [hr] at hconv
      cases hconv
    | some name =>
      simp only [hr] at hconv
      by_cases hname : name = ""
      · rw [if_pos hname] at hconv
        cases hconv
      · rw [if_neg hname] at hconv
        cases hconv
        exact ⟨by simp, by simp, by simp⟩
  · -- state
    unfold stateConversion at hconv
    cases hl : stateMappingLookup val with
    | none =>
      simp only [hl] at hconv
      cases hconv
    | some s =>
      simp only [hl] at hconv
      cases hconv
      exact ⟨by simp, by simp,
        by simpa using stateMappingLookup_some_ne_empty hl⟩
  · -- eta
    unfold etaConversion at hconv
    cases hconv
    have hz : val.toStr ++ "Z" ≠ "" :=
      append_ne_empty_of_right val.toStr (by decide)
    exact ⟨by simp, by simp, by simpa using hz⟩
  · -- logTrip
    unfold logTripConversion at hconv
    cases hn : (JComp.ofPrim val).toNum with
    | none =>
      simp only [hn] at hconv
      cases hconv
      simp [goodOVal]
    | some q =>
      simp only [hn] at hconv
      cases hconv
      simp [goodOVal]

/-- **C7, confirmed.**  Every entry appended to a delta's `values`
carries a value that is neither `null` nor `undefined` nor the empty
string; a rule whose source field is absent or empty, or whose
conversion returns `null`/`undefined`, contributes no entry at all. -/
theorem claim7_values_nonnull (resolve : JPrim → Option String) (v : MTRecord) :
    (∀ e ∈ (getVesselDelta resolve v).values, goodOVal e.value) ∧
    (∀ m : Mapping, vesselGet v m.key = none → processMapping v m = []) ∧
    (∀ m : Mapping, vesselGet v m.key = some (.str "") → processMapping v m = []) ∧
    (∀ (m : Mapping) (f : MTRecord → JPrim → Option OVal) (val : JPrim),
      m.conversion = some f → vesselGet v m.key = some val → f v val = none →
      processMapping v m = []) := by
  refine ⟨?_, processMapping_none v, processMapping_empty_str v, ?_⟩
  · intro e he
    rw [mem_values_iff] at he
    obtain ⟨m, hm, hpm⟩ := he
    obtain ⟨val, w, hv, hne, hconv, he_eq⟩ := mem_processMapping_elim hpm
    by_cases hroot : m.root
    · rw [if_pos hroot] at he_eq
      subst he_eq
      exact ⟨by simp, by simp, by simp⟩
    · rw [if_neg hroot] at he_eq
      subst he_eq
      exact convertedValue_good resolve v m val w hm hne hconv
  · intro m f val hf hv hnone
    by_cases hne : val = .str ""
    · exact processMapping_empty_str v m (hne ▸ hv)
    · have hcv : convertedValue v m val = none := by
        unfold convertedValue
        rw [hf]
        exact hnone
      unfold processMapping
      simp only [hv]
      rw [if_neg hne]
      simp only [hcv]

/-- **C7, witness.**  On the MMSI-only record, the single emitted value
is good, and the absent-DESTINATION rule contributes nothing. -/
theorem claim7_witness :
    ((⟨"", .oobj [("mmsi", .ostr "1")]⟩ : SKValue) ∈
      (getVesselDelta resolve0 recMMSI).values) ∧
    goodOVal (⟨"", .oobj [("mmsi", .ostr "1")]⟩ : SKValue).value ∧
    (vesselGet recMMSI destinationMapping.key = none ∧
     processMapping recMMSI destinationMapping = []) := by
  have hmem : (⟨"", .oobj [("mmsi", .ostr "1")]⟩ : SKValue) ∈
      (getVesselDelta resolve0 recMMSI).values := by
    rw [show (getVesselDelta resolve0 recMMSI).values =
      [⟨"", .oobj [("mmsi", .ostr "1")]⟩] from rfl]
    exact List.Mem.head _
  exact ⟨hmem, (claim7_values_nonnull resolve0 recMMSI).1 _ hmem,
    rfl, (claim7_values_nonnull resolve0 recMMSI).2.1 destinationMapping rfl⟩

/-- **C8, counterexample.**  A well-formed payload whose `errors`
collection is empty is still an error envelope (`[]` is truthy in JS),
and `status.errors[0].detail` then throws a `TypeError` instead of
reporting a detail and yielding an empty sequence. -/
theorem claim8_counterexample :
    marineTrafficToDeltas resolve0 (.errors []) = .crash := rfl

/-- **C8, amended.**  For every payload carrying a nonempty `errors`
collection the translator reports the first error's detail and yields
an empty event sequence, attempting no normalization. -/
theorem claim8_error_envelope (resolve : JPrim → Option String)
    (e : ErrObj) (rest : List ErrObj) :
    marineTrafficToDeltas resolve (.errors (e :: rest)) =
      .errorReport ("error response from Marinetraffic: " ++ stringifyDetail e.detail) ∧
    eventsOf (marineTrafficToDeltas resolve (.errors (e :: rest))) = [] :=
  ⟨rfl, rfl⟩

/-- The §8 test record's `values`, with each payload in the exact shape
the converters construct it. -/
theorem testRec_values_raw (resolve : JPrim → Option String) :
    (getVesselDelta resolve testRec).values =
  [ ⟨"", .oobj [("mmsi", .ostr "304010417")]⟩,
    ⟨"", .oobj [("imo", .ostr "9015462")]⟩,
    ⟨"navigation.courseOverGroundTrue", .onum ((((327 : ℕ) : ℚ) : ℝ) * (Real.pi / 180))⟩,
    ⟨"navigation.headingTrue", .onum ((((329 : ℕ) : ℚ) : ℝ) * (Real.pi / 180))⟩,
    ⟨"navigation.position",
      .oobj [("latitude", .onum ((((47 : ℕ) : ℚ) + ((758499 : ℕ) : ℚ) / (10 : ℚ) ^ (6 : ℕ) : ℚ) : ℝ)),
        ("longitude", .onum ((-(((5 : ℕ) : ℚ) + ((154223 : ℕ) : ℚ) / (10 : ℚ) ^ (6 : ℕ)) : ℚ) : ℝ))]⟩,
    ⟨"navigation.speedOverGround", .onum ((((74 : ℕ) : ℚ) / 10 * 0.514444 : ℚ) : ℝ)⟩,
    ⟨"navigation.state", .ostr "motoring"⟩ ] := rfl

/-- **C3, counterexample.**  The §8 record produces two separate
empty-path entries — one holding only `mmsi`, one holding only `imo` —
not a single root-level entry containing both. -/
theorem claim3_counterexample :
    valuesAt (getVesselDelta resolve0 testRec) "" =
      [⟨"", .oobj [("mmsi", .ostr "304010417")]⟩,
       ⟨"", .oobj [("imo", .ostr "9015462")]⟩] ∧
    (valuesAt (getVesselDelta resolve0 testRec) "").length ≠ 1 ∧
    List.lookup "imo" [("mmsi", OVal.ostr "304010417")] = none ∧
    List.lookup "mmsi" [("imo", OVal.ostr "9015462")] = none := by
  have hval : valuesAt (getVesselDelta resolve0 testRec) "" =
      [⟨"", .oobj [("mmsi", .ostr "304010417")]⟩,
       ⟨"", .oobj [("imo", .ostr "9015462")]⟩] := by
    rw [valuesAt_empty]
    rfl
  exact ⟨hval, by rw [hval]; simp, rfl, rfl⟩

/-- **C3, amended.**  On the §8 one-record batch the translator
produces exactly one event with the claimed context, timestamp, source
label, kinematic values, state and position — but with TWO root-level
entries (`{mmsi}` and `{imo}` separately) instead of one entry holding
both. -/
theorem claim3_scenario (resolve : JPrim → Option String) :
    eventsOf (marineTrafficToDeltas resolve (.vessels [testRec])) =
      [getVesselDelta resolve testRec] ∧
    (getVesselDelta resolve testRec).context = "vessels.urn:mrn:imo:mmsi:304010417" ∧
    (getVesselDelta resolve testRec).timestamp = "2017-05-19T09:39:57Z" ∧
    (getVesselDelta resolve testRec).sourceLabel = "marinetraffic-TER" ∧
    (getVesselDelta resolve testRec).values =
      [ ⟨"", .oobj [("mmsi", .ostr "304010417")]⟩,
        ⟨"", .oobj [("imo", .ostr "9015462")]⟩,
        ⟨"navigation.courseOverGroundTrue", .onum (327 * Real.pi / 180)⟩,
        ⟨"navigation.headingTrue", .onum (329 * Real.pi / 180)⟩,
        ⟨"navigation.position", .oobj [("latitude", .onum 47.758499),
          ("longitude", .onum (-5.154223))]⟩,
        ⟨"navigation.speedOverGround", .onum (74 / 10 * 0.514444)⟩,
        ⟨"navigation.state", .ostr "motoring"⟩ ] := by
  refine ⟨rfl, rfl, rfl, rfl, ?_⟩
  rw [testRec_values_raw]
  simp only [List.cons.injEq, SKValue.mk.injEq, OVal.onum.injEq, OVal.oobj.injEq,
    Prod.mk.injEq, mul_div_assoc, and_true, true_and]
  push_cast
  norm_num

/-- Degree/radian conversion round-trips (exact over `ℝ`). -/
theorem radsToDeg_degsToRad (x : ℝ) : radsToDeg (degsToRad x) = x := by
  unfold radsToDeg degsToRad
  field_simp

/-- **C9, counterexample.**  At longitude 180 — inside the spec's
normalized range `(-π, π]` — projecting with distance 0 returns
longitude -180, not the input position: the floor-based modulo maps
`2π` to `0`. -/
theorem claim9_counterexample :
    calc_position_from ⟨0, 180⟩ 0 0 = ⟨0, -180⟩ ∧
    ((⟨0, -180⟩ : GeoPos) ≠ (⟨0, 180⟩ : GeoPos)) := by
  have hpi : (0:ℝ) < Real.pi := Real.pi_pos
  constructor
  · unfold calc_position_from
    have hD : (((0:ℝ) / 1000) / 1.852) / (180 * 60 / Real.pi) = 0 := by norm_num
    rw [hD]
    have h0 : degsToRad (0:ℝ) = 0 := by
      unfold degsToRad
      ring
    have h180 : degsToRad (180:ℝ) = Real.pi := by
      unfold degsToRad
      field_simp
    rw [h0, h180]
    simp only [Real.sin_zero, Real.cos_zero, mul_one, mul_zero, zero_mul, add_zero,
      sub_zero, Real.arcsin_zero]
    have hat : jsAtan2 0 1 = 0 := by
      unfold jsAtan2
      rw [if_pos one_pos]
      simp
    rw [hat, sub_zero]
    have hmod : jsMod (Real.pi + Real.pi) (2 * Real.pi) = 0 := by
      unfold jsMod
      have hone : (Real.pi + Real.pi) / (2 * Real.pi) = 1 := by
        field_simp
        ring
      rw [hone]
      simp
      ring
    rw [hmod]
    have hz : radsToDeg 0 = 0 := by
      unfold radsToDeg
      simp
    rw [hz]
    have hneg : radsToDeg (0 - Real.pi) = -180 := by
      unfold radsToDeg
      field_simp
      ring
    rw [hneg]
  · intro h
    have := congrArg GeoPos.longitude h
    simp at this
    norm_num at this

/-- **C9, amended.**  For every position with latitude strictly between
-90 and 90 and longitude in `[-180, 180)` — the half-open normalized
range the floor-based modulo actually produces — and every heading,
dead-reckoning with distance 0 returns exactly the same position; at
longitude 180 it returns the equivalent meridian -180 instead. -/
theorem claim9_projection_identity (p : GeoPos) (heading : ℝ)
    (hlat1 : -90 < p.latitude) (hlat2 : p.latitude < 90)
    (hlon1 : -180 ≤ p.longitude) (hlon2 : p.longitude < 180) :
    calc_position_from p heading 0 = p := by
  obtain ⟨la, lo⟩ := p
  simp only at hlat1 hlat2 hlon1 hlon2
  have hpi : (0:ℝ) < Real.pi := Real.pi_pos
  have hD : (((0:ℝ) / 1000) / 1.852) / (180 * 60 / Real.pi) = 0 := by norm_num
  have hφ1 : -(Real.pi / 2) ≤ degsToRad la := by
    unfold degsToRad
    nlinarith
  have hφ2 : degsToRad la ≤ Real.pi / 2 := by
    unfold degsToRad
    nlinarith
  have harc : Real.arcsin (Real.sin (degsToRad la)) = degsToRad la :=
    Real.arcsin_sin hφ1 hφ2
  have hpos : 0 < 1 - Real.sin (degsToRad la) * Real.sin (degsToRad la) := by
    have hcos : 0 < Real.cos (degsToRad la) := by
      apply Real.cos_pos_of_mem_Ioo
      constructor
      · unfold degsToRad
        nlinarith
      · unfold degsToRad
        nlinarith
    nlinarith [Real.sin_sq_add_cos_sq (degsToRad la)]
  have hat : jsAtan2 0 (1 - Real.sin (degsToRad la) * Real.sin (degsToRad la)) = 0 := by
    unfold jsAtan2
    rw [if_pos hpos]
    simp
  have hmod : jsMod (degsToRad lo + Real.pi) (2 * Real.pi) = degsToRad lo + Real.pi := by
    unfold jsMod
    have hfloor : ⌊(degsToRad lo + Real.pi) / (2 * Real.pi)⌋ = 0 := by
      rw [Int.floor_eq_zero_iff]
      constructor
      · apply div_nonneg
        · unfold degsToRad
          nlinarith
        · nlinarith
      · rw [div_lt_one (by nlinarith)]
        unfold degsToRad
        nlinarith
    rw [hfloor]
    simp
  unfold calc_position_from
  rw [hD]
  simp only [Real.sin_zero, Real.cos_zero, mul_one, mul_zero, zero_mul, add_zero,
    sub_zero]
  rw [harc, hat, sub_zero, hmod]
  rw [show degsToRad lo + Real.pi - Real.pi = degsToRad lo by ring]
  rw [radsToDeg_degsToRad, radsToDeg_degsToRad]

/-- **C9, witness.**  The origin with heading 0. -/
theorem claim9_witness :
    ((-90 : ℝ) < 0 ∧ (0 : ℝ) < 90 ∧ (-180 : ℝ) ≤ 0 ∧ (0 : ℝ) < 180) ∧
    calc_position_from ⟨0, 0⟩ 0 0 = ⟨0, 0⟩ :=
  ⟨⟨by norm_num, by norm_num, by norm_num, by norm_num⟩,
    claim9_projection_identity ⟨0, 0⟩ 0 (by norm_num) (by norm_num)
      (by norm_num) (by norm_num)⟩

/-- **C10, confirmed.**  Every event's timestamp is the raw TIMESTAMP
stringified and suffixed with "Z", and its source label is
"marinetraffic-" prefixed to the raw DSRC, with no validation; on the
all-absent record these are "undefinedZ" and
"marinetraffic-undefined". -/
theorem claim10_timestamp_sourcelabel (resolve : JPrim → Option String)
    (v : MTRecord) :
    (getVesselDelta resolve v).timestamp = strOfOpt v.TIMESTAMP ++ "Z" ∧
    (getVesselDelta resolve v).sourceLabel = "marinetraffic-" ++ strOfOpt v.DSRC ∧
    (getVesselDelta resolve emptyRec).timestamp = "undefinedZ" ∧
    (getVesselDelta resolve emptyRec).sourceLabel = "marinetraffic-undefined" :=
  ⟨rfl, rfl, rfl, rfl⟩

end MarineTraffic
